import Mathlib

/-!
Verification of the command-interpretation layer of xi-term
(`src/core/cmd.rs`): prompt parsing, keymap translation, and rendering of
the `Command` type. Rust strings are modelled as Lean `String`
(a list of unicode scalar values); `str::len` (a byte count in Rust) is
modelled by the UTF-8 byte size of the string.
-/

/-- UTF-8 encoded size in bytes of one unicode scalar value,
as for a Rust `char`. -/
def charUtf8Size (c : Char) : Nat :=
  if c.toNat < 0x80 then 1
  else if c.toNat < 0x800 then 2
  else if c.toNat < 0x10000 then 3
  else 4

/-- Byte length of a string, as Rust `str::len`. -/
def strBytes (s : String) : Nat :=
  s.data.foldl (fun n c => n + charUtf8Size c) 0

/-- Split a character list at the first space, returning the part before it
and, when a space exists, the part after it.  Models the two results of
Rust `str::splitn(2, ' ')`. -/
def breakSp : List Char → List Char × Option (List Char)
  | [] => ([], none)
  | c :: rest =>
    if c = ' ' then ([], some rest)
    else
      let (a, b) := breakSp rest
      (c :: a, b)

/-- Rust `s.splitn(2, ' ')`: the first part, and the remainder after the
first space when present. -/
def splitFirstSpace (s : String) : String × Option String :=
  match breakSp s.data with
  | (a, none) => (⟨a⟩, none)
  | (a, some b) => (⟨a⟩, some ⟨b⟩)

/-- Rust `s.split(' ')` on a character list: splits at every space.
The result is never empty; on the empty input it is `[[]]`,
matching Rust where `"".split(' ')` yields one empty item. -/
def splitChars : List Char → List (List Char)
  | [] => [[]]
  | c :: rest =>
    if c = ' ' then [] :: splitChars rest
    else
      match splitChars rest with
      | [] => [[c]]
      | t :: ts => (c :: t) :: ts

/-- Rust `s.split(' ').collect::<Vec<_>>()`. -/
def splitSp (s : String) : List String :=
  (splitChars s.data).map (fun l => ⟨l⟩)

/-- Rust `str::parse::<u64>()`: an optional leading `+`, then one or more
ASCII digits, value below `2^64`; anything else (including the empty
string and overflow) fails. -/
def parseU64 (s : String) : Option Nat :=
  let ds := match s.data with
    | '+' :: rest => rest
    | l => l
  if ds = [] then none
  else if ds.all (fun c => c.isDigit) then
    let n := ds.foldl (fun acc c => acc * 10 + (c.toNat - '0'.toNat)) 0
    if n < 2 ^ 64 then some n else none
  else none

/-! ## Data model (`cmd.rs`) -/

/-- `RelativeMoveDistance` from `cmd.rs`. -/
inductive RelativeMoveDistance where
  | characters
  | lines
  | words
  | word_ends
  | subwords
  | subword_ends
  | pages
  deriving DecidableEq, Repr

/-- `RelativeMove` from `cmd.rs`. -/
structure RelativeMove where
  by_ : RelativeMoveDistance
  forward : Bool
  extend : Bool
  deriving DecidableEq, Repr

/-- `AbsoluteMovePoint` from `cmd.rs`; `line` carries a `u64`,
modelled as a `Nat` (the parser only produces values below `2^64`). -/
inductive AbsoluteMovePoint where
  | bof
  | eof
  | bol
  | eol
  | brackets
  | line (n : Nat)
  deriving DecidableEq, Repr

/-- `AbsoluteMove` from `cmd.rs` (the field `to` is renamed `to_`,
`to` being reserved in Lean). -/
structure AbsoluteMove where
  to_ : AbsoluteMovePoint
  extend : Bool
  deriving DecidableEq, Repr

/-- `ExpandLinesDirection` from `cmd.rs`. -/
structure ExpandLinesDirection where
  forward : Bool
  deriving DecidableEq, Repr

/-- `FindConfig` from `cmd.rs`. -/
structure FindConfig where
  search_term : String
  case_sensitive : Bool
  regex : Bool
  whole_words : Bool
  deriving DecidableEq, Repr

/-- `xrl::ViewId`, an external identifier type whose contents `cmd.rs`
never inspects; modelled as a natural number. -/
abbrev ViewId := Nat

/-- Modelled from the spec: `CommandPromptMode` from `widgets` is not under
`src/`; per the spec the open-prompt command carries a sub-mode, and the
two modes used by `cmd.rs` are the command prompt and the find prompt. -/
inductive CommandPromptMode where
  | Command
  | Find
  deriving DecidableEq, Repr

/-- `serde_json::Value`: JSON values (numbers simplified to integers;
no numeric JSON is exercised by the keymap claims). -/
inductive Json where
  | null
  | bool (b : Bool)
  | num (n : Int)
  | str (s : String)
  | arr (xs : List Json)
  | obj (kvs : List (String × Json))

/-- First value bound to `key` in an association list. -/
def findKv : List (String × Json) → String → Option Json
  | [], _ => none
  | (k, v) :: rest, key => if k = key then some v else findKv rest key

/-- `serde_json::Value::get(key)`: field lookup, `none` on non-objects. -/
def Json.get (j : Json) (key : String) : Option Json :=
  match j with
  | .obj kvs => findKv kvs key
  | _ => none

/-- Modelled from the spec: `KeymapEntry` from `core` is not under `src/`;
per the spec a binding record has a key sequence, a command name, optional
structured args and an optional context. -/
structure KeymapEntry where
  keys : List String
  command : String
  args : Option Json
  context : Option String

/-- The `Command` enum from `cmd.rs`. -/
inductive Command where
  | Cancel
  | Quit
  | Save (v : Option ViewId)
  | Back
  | Delete
  | Open (f : Option String)
  | NextBuffer
  | PrevBuffer
  | RelativeMove (m : RelativeMove)
  | AbsoluteMove (m : AbsoluteMove)
  | SetTheme (t : String)
  | ToggleLineNumbers
  | OpenPrompt (m : CommandPromptMode)
  | Insert (c : Char)
  | Undo
  | Redo
  | Find (c : FindConfig)
  | FindNext
  | FindPrev
  | FindUnderExpand
  | CursorExpandLines (d : ExpandLinesDirection)
  | CopySelection
  | Paste
  | CutSelection
  | CloseCurrentView
  | SelectAll
  deriving DecidableEq, Repr

/-- `ParseCommandError` from `cmd.rs`. -/
inductive ParseCommandError where
  | UnexpectedArgument
  | ExpectedArgument (cmd : String)
  | TooManyArguments (cmd : String) (expected : Nat) (found : Nat)
  | UnknownCommand (cmd : String)
  deriving DecidableEq, Repr

/-! ## Rendering (`ToPrompt` impls in `cmd.rs`) -/

/-- `impl ToPrompt for RelativeMove`: `"move "` plus a direction label
chosen by distance and direction, then `" (e)xtend"` when extending. -/
def RelativeMove.to_prompt (m : RelativeMove) : String :=
  let ret := "move " ++
    (match m.by_ with
     | .characters => if m.forward then "left" else "right"
     | .lines => if m.forward then "down" else "up"
     | .words => if m.forward then "wordleft" else "wordright"
     | .word_ends => if m.forward then "wendleft" else "wendright"
     | .subwords => if m.forward then "subwordleft" else "subwordright"
     | .subword_ends => if m.forward then "subwendleft" else "subwendright"
     | .pages => if m.forward then "page-down" else "page-up")
  if m.extend then ret ++ " (e)xtend" else ret

/-- `impl ToPrompt for AbsoluteMove`. -/
def AbsoluteMove.to_prompt (m : AbsoluteMove) : String :=
  let ret := "move " ++
    (match m.to_ with
     | .bof => "bof"
     | .eof => "eof"
     | .bol => "bol"
     | .eol => "eol"
     | .brackets => "brackets"
     | .line _ => "<line>")
  if m.extend then ret ++ " (e)xtend" else ret

/-- `impl ToPrompt for Command`: the fixed label of each variant
(including the `selecta_ll` typo of the source). -/
def Command.to_prompt (c : Command) : String :=
  match c with
  | .Cancel => "cancel"
  | .Quit => "quit"
  | .Save _ => "save"
  | .Back => "back"
  | .Delete => "delete"
  | .Open _ => "open"
  | .NextBuffer => "buffernext"
  | .PrevBuffer => "bufferprev"
  | .RelativeMove x => x.to_prompt
  | .AbsoluteMove x => x.to_prompt
  | .SetTheme _ => "settheme"
  | .ToggleLineNumbers => "togglelinenumbers"
  | .OpenPrompt _ => "open-prompt"
  | .Insert _ => "insert"
  | .Undo => "undo"
  | .Redo => "redo"
  | .Find _ => "find"
  | .FindNext => "findnext"
  | .FindPrev => "findprev"
  | .FindUnderExpand => "find_under_expand"
  | .CursorExpandLines _ => "cursor_expand_lines"
  | .CopySelection => "copy"
  | .Paste => "paste"
  | .CutSelection => "cut"
  | .CloseCurrentView => "close"
  | .SelectAll => "selecta_ll"

/-! ## Parsing (`FromPrompt` impls in `cmd.rs`) -/

/-- `impl FromPrompt for RelativeMove`: split the argument on spaces,
reject more than two tokens, map the first token through the fixed
table, and set `extend` iff a second token is present.  The
`vals.is_empty()` branch of the source is kept even though `split`
never yields an empty list. -/
def RelativeMove.from_prompt (args : String) : Except ParseCommandError Command :=
  match splitSp args with
  | [] => .error (.ExpectedArgument "move")
  | v0 :: rest =>
    if rest.length + 1 > 2 then
      .error (.TooManyArguments "move" 2 (rest.length + 1))
    else
      let extend := rest.length + 1 == 2
      if v0 = "d" ∨ v0 = "down" then
        .ok (.RelativeMove ⟨.lines, true, extend⟩)
      else if v0 = "u" ∨ v0 = "up" then
        .ok (.RelativeMove ⟨.lines, false, extend⟩)
      else if v0 = "r" ∨ v0 = "right" then
        .ok (.RelativeMove ⟨.characters, true, extend⟩)
      else if v0 = "l" ∨ v0 = "left" then
        .ok (.RelativeMove ⟨.characters, false, extend⟩)
      else if v0 = "pd" ∨ v0 = "page-down" then
        .ok (.RelativeMove ⟨.pages, true, extend⟩)
      else if v0 = "pu" ∨ v0 = "page-up" then
        .ok (.RelativeMove ⟨.pages, false, extend⟩)
      else
        .error (.UnknownCommand v0)

/-- `impl FromPrompt for AbsoluteMove`: like the relative grammar, with
keyword targets; a non-keyword first token is parsed as a `u64` line
number with `extend` forced to `false`. -/
def AbsoluteMove.from_prompt (args : String) : Except ParseCommandError Command :=
  match splitSp args with
  | [] => .error (.ExpectedArgument "move_to")
  | v0 :: rest =>
    if rest.length + 1 > 2 then
      .error (.TooManyArguments "move_to" 2 (rest.length + 1))
    else
      let extend := rest.length + 1 == 2
      if v0 = "bof" ∨ v0 = "beginning-of-file" then
        .ok (.AbsoluteMove ⟨.bof, extend⟩)
      else if v0 = "eof" ∨ v0 = "end-of-file" then
        .ok (.AbsoluteMove ⟨.eof, extend⟩)
      else if v0 = "bol" ∨ v0 = "beginning-of-line" then
        .ok (.AbsoluteMove ⟨.bol, extend⟩)
      else if v0 = "eol" ∨ v0 = "end-of-line" then
        .ok (.AbsoluteMove ⟨.eol, extend⟩)
      else
        match parseU64 v0 with
        | some number => .ok (.AbsoluteMove ⟨.line number, false⟩)
        | none => .error (.UnknownCommand v0)

/-- The flag-scanning loop of `FindConfig::from_prompt`: walks the
candidate cluster updating the three shadow flags, failing on the first
character outside `{c, r, w}`. -/
def scanFlags : List Char → Bool × Bool × Bool → Option (Bool × Bool × Bool)
  | [], s => some s
  | ch :: rest, (c, r, w) =>
    if ch = 'c' then scanFlags rest (true, r, w)
    else if ch = 'r' then scanFlags rest (c, true, w)
    else if ch = 'w' then scanFlags rest (c, r, true)
    else none

/-- `impl FromPrompt for FindConfig`: empty input is an error; otherwise
split once on the first space, and when there are two parts and the first
is at most 3 bytes long, try to read it as a flag cluster, falling back to
the whole input as the literal search term. -/
def FindConfig.from_prompt (args : String) : Except ParseCommandError Command :=
  if args = "" then .error (.ExpectedArgument "find")
  else
    match splitFirstSpace args with
    | (p0, some p1) =>
      if strBytes p0 ≤ 3 then
        match scanFlags p0.data (false, false, false) with
        | some (c, r, w) =>
          .ok (.Find ⟨p1, c, r, w⟩)
        | none =>
          .ok (.Find ⟨args, false, false, false⟩)
      else
        .ok (.Find ⟨args, false, false, false⟩)
    | (_, none) =>
      .ok (.Find ⟨args, false, false, false⟩)

/-! ## Keymap translation (`Command::from_keymap_entry`) -/

/-- Serde string form of each `RelativeMoveDistance` variant. -/
def distFromString (s : String) : Option RelativeMoveDistance :=
  if s = "characters" then some .characters
  else if s = "lines" then some .lines
  else if s = "words" then some .words
  else if s = "word_ends" then some .word_ends
  else if s = "subwords" then some .subwords
  else if s = "subword_ends" then some .subword_ends
  else if s = "pages" then some .pages
  else none

/-- `serde_json::from_value::<RelativeMove>`: an object with a `by` field
naming a distance, a boolean `forward` field, and an optional boolean
`extend` field defaulting to `false`. -/
def decodeRelativeMove (j : Json) : Option RelativeMove :=
  match j.get "by" with
  | some (.str s) =>
    match distFromString s with
    | some d =>
      match j.get "forward" with
      | some (.bool f) =>
        match j.get "extend" with
        | none => some ⟨d, f, false⟩
        | some (.bool e) => some ⟨d, f, e⟩
        | some _ => none
      | _ => none
    | none => none
  | _ => none

/-- Serde form of `AbsoluteMovePoint`: a unit-variant name as a string, or
the externally tagged `{"line": n}` with `n` a `u64`. -/
def decodePoint (j : Json) : Option AbsoluteMovePoint :=
  match j with
  | .str s =>
    if s = "bof" then some .bof
    else if s = "eof" then some .eof
    else if s = "bol" then some .bol
    else if s = "eol" then some .eol
    else if s = "brackets" then some .brackets
    else none
  | .obj kvs =>
    match findKv kvs "line" with
    | some (.num n) => if 0 ≤ n ∧ n < 2 ^ 64 then some (.line n.toNat) else none
    | _ => none
  | _ => none

/-- `serde_json::from_value::<AbsoluteMove>`. -/
def decodeAbsoluteMove (j : Json) : Option AbsoluteMove :=
  match j.get "to" with
  | some jt =>
    match decodePoint jt with
    | some p =>
      match j.get "extend" with
      | none => some ⟨p, false⟩
      | some (.bool e) => some ⟨p, e⟩
      | some _ => none
    | none => none
  | none => none

/-- `serde_json::from_value::<ExpandLinesDirection>`. -/
def decodeExpandLines (j : Json) : Option ExpandLinesDirection :=
  match j.get "forward" with
  | some (.bool f) => some ⟨f⟩
  | _ => none

/-- `Command::from_keymap_entry`: the fixed command-name table, with
structured-argument decoding for `show_overlay`, `show_panel`, `move`,
`move_to` and `select_lines`. -/
def Command.from_keymap_entry (val : KeymapEntry) : Except ParseCommandError Command :=
  if val.command = "select_all" then .ok .SelectAll
  else if val.command = "close" then .ok .CloseCurrentView
  else if val.command = "copy" then .ok .CopySelection
  else if val.command = "cut" then .ok .CutSelection
  else if val.command = "paste" then .ok .Paste
  else if val.command = "fue" ∨ val.command = "find_under_expand" then .ok .FindUnderExpand
  else if val.command = "fn" ∨ val.command = "find_next" then .ok .FindNext
  else if val.command = "fp" ∨ val.command = "find_prev" then .ok .FindPrev
  else if val.command = "hide_overlay" then .ok .Cancel
  else if val.command = "s" ∨ val.command = "save" then .ok (.Save none)
  else if val.command = "q" ∨ val.command = "quit" ∨ val.command = "exit" then .ok .Quit
  else if val.command = "b" ∨ val.command = "back" ∨ val.command = "left_delete" then .ok .Back
  else if val.command = "d" ∨ val.command = "delete" ∨ val.command = "right_delete" then .ok .Delete
  else if val.command = "bn" ∨ val.command = "next-buffer" ∨ val.command = "next_view" then .ok .NextBuffer
  else if val.command = "bp" ∨ val.command = "prev-buffer" ∨ val.command = "prev_view" then .ok .PrevBuffer
  else if val.command = "undo" then .ok .Undo
  else if val.command = "redo" then .ok .Redo
  else if val.command = "ln" ∨ val.command = "line-numbers" then .ok .ToggleLineNumbers
  else if val.command = "op" ∨ val.command = "open-prompt" then .ok (.OpenPrompt .Command)
  else if val.command = "show_overlay" then
    match val.args with
    | none => .error (.ExpectedArgument "show_overlay")
    | some args =>
      match args.get "overlay" with
      | none => .error .UnexpectedArgument
      | some value =>
        match value with
        | .str x => if x = "goto" then .ok (.OpenPrompt .Command) else .error .UnexpectedArgument
        | _ => .error .UnexpectedArgument
  else if val.command = "show_panel" then
    match val.args with
    | none => .error (.ExpectedArgument "show_panel")
    | some args =>
      match args.get "panel" with
      | none => .error .UnexpectedArgument
      | some value =>
        match value with
        | .str x => if x = "find" then .ok (.OpenPrompt .Find) else .error .UnexpectedArgument
        | _ => .error .UnexpectedArgument
  else if val.command = "move" then
    match val.args with
    | none => .error (.ExpectedArgument "move")
    | some args =>
      match decodeRelativeMove args with
      | none => .error .UnexpectedArgument
      | some cmd => .ok (.RelativeMove cmd)
  else if val.command = "move_to" then
    match val.args with
    | none => .error (.ExpectedArgument "move_to")
    | some args =>
      match decodeAbsoluteMove args with
      | none => .error .UnexpectedArgument
      | some cmd => .ok (.AbsoluteMove cmd)
  else if val.command = "select_lines" then
    match val.args with
    | none => .error (.ExpectedArgument "select_lines")
    | some args =>
      match decodeExpandLines args with
      | none => .error .UnexpectedArgument
      | some cmd => .ok (.CursorExpandLines cmd)
  else .error (.UnknownCommand val.command)

/-! ## Top-level prompt translation (`impl FromPrompt for Command`)

`shellexpand::full` consults the process environment, so the top-level
parser is parameterized by the expansion function `se` (returning `none`
on expansion failure); no claim depends on its behaviour. -/

/-- `impl FromPrompt for Command`: split the line once on the first space
into a command word and an optional remainder, dispatch `move`, `move_to`,
`t`/`theme`, `o`/`open` and `f`/`find` to their grammars, and fall back to
the keymap table with the remainder discarded. -/
def Command.from_prompt (se : String → Option String) (input : String) :
    Except ParseCommandError Command :=
  let (cmd, args) := splitFirstSpace input
  if cmd = "move" then
    match args with
    | none => .error (.ExpectedArgument "move")
    | some arg => RelativeMove.from_prompt arg
  else if cmd = "move_to" then
    match args with
    | none => .error (.ExpectedArgument "move")
    | some arg => AbsoluteMove.from_prompt arg
  else if cmd = "t" ∨ cmd = "theme" then
    match args with
    | none => .error (.ExpectedArgument "theme")
    | some theme => .ok (.SetTheme theme)
  else if cmd = "o" ∨ cmd = "open" then
    match args with
    | some name =>
      match se name with
      | some expanded_name => .ok (.Open (some expanded_name))
      | none => .error (.UnknownCommand name)
    | none => .ok (.Open none)
  else if cmd = "f" ∨ cmd = "find" then
    match args with
    | none => .error (.ExpectedArgument "find")
    | some needle => FindConfig.from_prompt needle
  else
    Command.from_keymap_entry ⟨[], cmd, none, none⟩

deriving instance DecidableEq for Except

/-! ## Helper lemmas -/

theorem stringMk_data (s : String) : (⟨s.data⟩ : String) = s := by
  cases s
  rfl

theorem splitChars_ne_nil (l : List Char) : splitChars l ≠ [] := by
  cases l with
  | nil => simp [splitChars]
  | cons c rest =>
    simp only [splitChars]
    by_cases h : c = ' '
    · simp [h]
    · simp only [h, if_false]
      cases splitChars rest <;> simp

theorem splitSp_ne_nil (s : String) : splitSp s ≠ [] := by
  unfold splitSp
  intro h
  exact splitChars_ne_nil s.data (by simpa using h)

theorem breakSp_no_space (a : List Char) (h : ' ' ∉ a) : breakSp a = (a, none) := by
  induction a with
  | nil => rfl
  | cons c rest ih =>
    have hc : c ≠ ' ' := fun hc => h (hc ▸ List.mem_cons_self c rest)
    have hr : ' ' ∉ rest := fun hr => h (List.mem_cons_of_mem c hr)
    simp [breakSp, hc, ih hr]

theorem breakSp_append (a b : List Char) (h : ' ' ∉ a) :
    breakSp (a ++ ' ' :: b) = (a, some b) := by
  induction a with
  | nil => simp [breakSp]
  | cons c rest ih =>
    have hc : c ≠ ' ' := fun hc => h (hc ▸ List.mem_cons_self c rest)
    have hr : ' ' ∉ rest := fun hr => h (List.mem_cons_of_mem c hr)
    simp [breakSp, hc, ih hr]

theorem splitChars_no_space (a : List Char) (h : ' ' ∉ a) : splitChars a = [a] := by
  induction a with
  | nil => rfl
  | cons c rest ih =>
    have hc : c ≠ ' ' := fun hc => h (hc ▸ List.mem_cons_self c rest)
    have hr : ' ' ∉ rest := fun hr => h (List.mem_cons_of_mem c hr)
    simp [splitChars, hc, ih hr]

theorem splitChars_append (a b : List Char) (h : ' ' ∉ a) :
    splitChars (a ++ ' ' :: b) = a :: splitChars b := by
  induction a with
  | nil => simp [splitChars]
  | cons c rest ih =>
    have hc : c ≠ ' ' := fun hc => h (hc ▸ List.mem_cons_self c rest)
    have hr : ' ' ∉ rest := fun hr => h (List.mem_cons_of_mem c hr)
    simp only [List.cons_append, splitChars, hc, if_false, List.append_eq]
    rw [ih hr]

theorem data_append_space (w r : String) :
    (w ++ " " ++ r).data = w.data ++ ' ' :: r.data := by
  simp [String.data_append]

theorem splitFirstSpace_no_space (s : String) (h : ' ' ∉ s.data) :
    splitFirstSpace s = (s, none) := by
  unfold splitFirstSpace
  rw [breakSp_no_space s.data h]

theorem splitFirstSpace_append (w r : String) (h : ' ' ∉ w.data) :
    splitFirstSpace (w ++ " " ++ r) = (w, some r) := by
  unfold splitFirstSpace
  rw [data_append_space, breakSp_append w.data r.data h]

theorem splitSp_no_space (s : String) (h : ' ' ∉ s.data) : splitSp s = [s] := by
  unfold splitSp
  rw [splitChars_no_space s.data h]
  simp [stringMk_data]

theorem splitSp_append (w x : String) (hw : ' ' ∉ w.data) (hx : ' ' ∉ x.data) :
    splitSp (w ++ " " ++ x) = [w, x] := by
  unfold splitSp
  rw [data_append_space, splitChars_append w.data x.data hw,
      splitChars_no_space x.data hx]
  simp [stringMk_data]

theorem scanFlags_eq (l : List Char) (a b d : Bool) :
    scanFlags l (a, b, d) =
      if l.all (fun c => c == 'c' || c == 'r' || c == 'w') then
        some (a || l.contains 'c', b || l.contains 'r', d || l.contains 'w')
      else none := by
  induction l generalizing a b d with
  | nil => simp [scanFlags]
  | cons ch rest ih =>
    by_cases h1 : ch = 'c'
    · subst h1
      simp [scanFlags, ih, List.contains_cons]
    · by_cases h2 : ch = 'r'
      · subst h2
        simp [scanFlags, ih, List.contains_cons]
      · by_cases h3 : ch = 'w'
        · subst h3
          simp [scanFlags, ih, List.contains_cons]
        · simp [scanFlags, h1, h2, h3, List.contains_cons]

/-! ## Claims -/

/-- C2: For a relative-move argument splitting into one or two tokens, the
first token maps to (distance, forward) per the fixed table producing a
`RelativeMove`; any other first token yields unknown-command with that
token; more than two tokens yields too-many-arguments("move", 2, N).
`parse("move d")` is RelativeMove{lines, forward, no extend} and
`parse("move zz")` is unknown-command("zz"). -/
theorem C2_relative_move_table :
    (∀ (args v0 : String) (rest : List String),
      splitSp args = v0 :: rest →
      (rest.length ≤ 1 →
        ((v0 = "d" ∨ v0 = "down") →
          RelativeMove.from_prompt args =
            .ok (.RelativeMove ⟨.lines, true, rest.length == 1⟩)) ∧
        ((v0 = "u" ∨ v0 = "up") →
          RelativeMove.from_prompt args =
            .ok (.RelativeMove ⟨.lines, false, rest.length == 1⟩)) ∧
        ((v0 = "r" ∨ v0 = "right") →
          RelativeMove.from_prompt args =
            .ok (.RelativeMove ⟨.characters, true, rest.length == 1⟩)) ∧
        ((v0 = "l" ∨ v0 = "left") →
          RelativeMove.from_prompt args =
            .ok (.RelativeMove ⟨.characters, false, rest.length == 1⟩)) ∧
        ((v0 = "pd" ∨ v0 = "page-down") →
          RelativeMove.from_prompt args =
            .ok (.RelativeMove ⟨.pages, true, rest.length == 1⟩)) ∧
        ((v0 = "pu" ∨ v0 = "page-up") →
          RelativeMove.from_prompt args =
            .ok (.RelativeMove ⟨.pages, false, rest.length == 1⟩)) ∧
        (v0 ∉ (["d", "down", "u", "up", "r", "right", "l", "left",
                "pd", "page-down", "pu", "page-up"] : List String) →
          RelativeMove.from_prompt args = .error (.UnknownCommand v0))) ∧
      (2 ≤ rest.length →
        RelativeMove.from_prompt args =
          .error (.TooManyArguments "move" 2 (rest.length + 1)))) ∧
    (∀ se : String → Option String,
      Command.from_prompt se "move d" = .ok (.RelativeMove ⟨.lines, true, false⟩) ∧
      Command.from_prompt se "move zz" = .error (.UnknownCommand "zz")) := by
  constructor
  · intro args v0 rest h
    constructor
    · intro hlen
      rcases rest with _ | ⟨x, _ | ⟨y, r2⟩⟩
      · refine ⟨?_, ?_, ?_, ?_, ?_, ?_, ?_⟩
        · rintro (rfl | rfl) <;> simp only [RelativeMove.from_prompt, h] <;> rfl
        · rintro (rfl | rfl) <;> simp only [RelativeMove.from_prompt, h] <;> rfl
        · rintro (rfl | rfl) <;> simp only [RelativeMove.from_prompt, h] <;> rfl
        · rintro (rfl | rfl) <;> simp only [RelativeMove.from_prompt, h] <;> rfl
        · rintro (rfl | rfl) <;> simp only [RelativeMove.from_prompt, h] <;> rfl
        · rintro (rfl | rfl) <;> simp only [RelativeMove.from_prompt, h] <;> rfl
        · intro hv
          simp only [List.mem_cons, not_or] at hv
          obtain ⟨n1, n2, n3, n4, n5, n6, n7, n8, n9, n10, n11, n12, -⟩ := hv
          simp only [RelativeMove.from_prompt, h]
          rw [if_neg (by omega), if_neg (by tauto), if_neg (by tauto),
              if_neg (by tauto), if_neg (by tauto), if_neg (by tauto),
              if_neg (by tauto)]
      · refine ⟨?_, ?_, ?_, ?_, ?_, ?_, ?_⟩
        · rintro (rfl | rfl) <;> simp only [RelativeMove.from_prompt, h] <;> rfl
        · rintro (rfl | rfl) <;> simp only [RelativeMove.from_prompt, h] <;> rfl
        · rintro (rfl | rfl) <;> simp only [RelativeMove.from_prompt, h] <;> rfl
        · rintro (rfl | rfl) <;> simp only [RelativeMove.from_prompt, h] <;> rfl
        · rintro (rfl | rfl) <;> simp only [RelativeMove.from_prompt, h] <;> rfl
        · rintro (rfl | rfl) <;> simp only [RelativeMove.from_prompt, h] <;> rfl
        · intro hv
          simp only [List.mem_cons, not_or] at hv
          obtain ⟨n1, n2, n3, n4, n5, n6, n7, n8, n9, n10, n11, n12, -⟩ := hv
          simp only [RelativeMove.from_prompt, h]
          rw [if_neg (by omega), if_neg (by tauto), if_neg (by tauto),
              if_neg (by tauto), if_neg (by tauto), if_neg (by tauto),
              if_neg (by tauto)]
      · simp at hlen
    · intro hlen
      simp only [RelativeMove.from_prompt, h]
      rw [if_pos (by omega)]
  · intro se
    exact ⟨rfl, rfl⟩

/-- C2 witness: the table and the too-many-arguments rule at concrete
inputs. -/
theorem C2_relative_move_table_witness :
    RelativeMove.from_prompt "pd x" = .ok (.RelativeMove ⟨.pages, true, true⟩) ∧
    RelativeMove.from_prompt "zz a b" = .error (.TooManyArguments "move" 2 3) := by
  constructor
  · exact ((C2_relative_move_table.1 "pd x" "pd" ["x"]
      (by decide)).1 (by decide)).2.2.2.2.1 (Or.inl rfl)
  · exact (C2_relative_move_table.1 "zz a b" "zz" ["a", "b"]
      (by decide)).2 (by decide)

/-- C4: A one- or two-token absolute-move argument whose first token is
not a keyword target parses that token as a `u64`: on success the result
is a line-number target with `extend` forced to `false`; on failure it is
unknown-command with the token.  `parse("move_to 42")` and
`parse("move_to abc")` behave accordingly. -/
theorem C4_absolute_line_number :
    (∀ (args v0 : String) (rest : List String),
      splitSp args = v0 :: rest → rest.length ≤ 1 →
      v0 ∉ (["bof", "beginning-of-file", "eof", "end-of-file",
             "bol", "beginning-of-line", "eol", "end-of-line"] : List String) →
      (∀ n : Nat, parseU64 v0 = some n →
        AbsoluteMove.from_prompt args = .ok (.AbsoluteMove ⟨.line n, false⟩)) ∧
      (parseU64 v0 = none →
        AbsoluteMove.from_prompt args = .error (.UnknownCommand v0))) ∧
    (∀ se : String → Option String,
      Command.from_prompt se "move_to 42" = .ok (.AbsoluteMove ⟨.line 42, false⟩) ∧
      Command.from_prompt se "move_to abc" = .error (.UnknownCommand "abc")) := by
  constructor
  · intro args v0 rest h hlen hv
    simp only [List.mem_cons, not_or] at hv
    obtain ⟨n1, n2, n3, n4, n5, n6, n7, n8, -⟩ := hv
    have hbase : AbsoluteMove.from_prompt args =
        (match parseU64 v0 with
         | some number => .ok (.AbsoluteMove ⟨.line number, false⟩)
         | none => .error (.UnknownCommand v0)) := by
      simp only [AbsoluteMove.from_prompt, h]
      rw [if_neg (by omega), if_neg (by tauto), if_neg (by tauto),
          if_neg (by tauto), if_neg (by tauto)]
    constructor
    · intro n hn
      rw [hbase, hn]
    · intro hn
      rw [hbase, hn]
  · intro se
    exact ⟨rfl, rfl⟩

/-- C4 witness: concrete line-number and failing-token cases. -/
theorem C4_absolute_line_number_witness :
    AbsoluteMove.from_prompt "9 k" = .ok (.AbsoluteMove ⟨.line 9, false⟩) ∧
    AbsoluteMove.from_prompt "x7" = .error (.UnknownCommand "x7") := by
  constructor
  · exact (C4_absolute_line_number.1 "9 k" "9" ["k"]
      (by decide) (by decide) (by decide)).1 9 (by decide)
  · exact (C4_absolute_line_number.1 "x7" "x7" []
      (by decide) (by decide) (by decide)).2 (by decide)

/-- C5 counterexample: on the empty remainder the relative-move grammar
returns unknown-command("") rather than expected-argument("move"):
splitting the empty string produces one empty token, never zero. -/
theorem C5_counterexample :
    RelativeMove.from_prompt "" = .error (.UnknownCommand "") ∧
    RelativeMove.from_prompt "" ≠ .error (.ExpectedArgument "move") := by
  exact ⟨rfl, by decide⟩

/-- C5 amended: an empty remainder yields one empty token, so both move
grammars return unknown-command("") on it; the zero-token
expected-argument branches are unreachable because splitting on spaces
never produces an empty token list. -/
theorem C5_empty_remainder :
    RelativeMove.from_prompt "" = .error (.UnknownCommand "") ∧
    AbsoluteMove.from_prompt "" = .error (.UnknownCommand "") ∧
    ∀ args : String, splitSp args ≠ [] := by
  exact ⟨rfl, rfl, splitSp_ne_nil⟩

/-- C6: the bare word "move_to" is reported by the top-level prompt
translator as expected-argument("move") — the tag says "move", not
"move_to" — and the bare word "move" also gives expected-argument("move"). -/
theorem C6_move_to_error_tag :
    ∀ se : String → Option String,
      Command.from_prompt se "move_to" = .error (.ExpectedArgument "move") ∧
      Command.from_prompt se "move" = .error (.ExpectedArgument "move") := by
  intro se
  exact ⟨rfl, rfl⟩

/-- C3: for every recognized relative-move token and every non-empty
space-free second token x, parsing "tok x" yields the same RelativeMove
as parsing "tok" except that extend is true; the content of x is never
inspected.  The keyword targets of the absolute-move grammar obey the
same positional-count policy. -/
theorem C3_extend_content_independence :
    (∀ (tok x : String),
      tok ∈ (["d", "down", "u", "up", "r", "right", "l", "left",
              "pd", "page-down", "pu", "page-up"] : List String) →
      x ≠ "" → ' ' ∉ x.data →
      ∃ (b : RelativeMoveDistance) (f : Bool),
        RelativeMove.from_prompt tok = .ok (.RelativeMove ⟨b, f, false⟩) ∧
        RelativeMove.from_prompt (tok ++ " " ++ x) =
          .ok (.RelativeMove ⟨b, f, true⟩)) ∧
    (∀ (tok x : String),
      tok ∈ (["bof", "beginning-of-file", "eof", "end-of-file",
              "bol", "beginning-of-line", "eol", "end-of-line"] : List String) →
      x ≠ "" → ' ' ∉ x.data →
      ∃ p : AbsoluteMovePoint,
        AbsoluteMove.from_prompt tok = .ok (.AbsoluteMove ⟨p, false⟩) ∧
        AbsoluteMove.from_prompt (tok ++ " " ++ x) =
          .ok (.AbsoluteMove ⟨p, true⟩)) := by
  constructor
  · intro tok x htok hne hx
    simp only [List.mem_cons, List.not_mem_nil, or_false] at htok
    rcases htok with rfl | rfl | rfl | rfl | rfl | rfl | rfl | rfl | rfl | rfl | rfl | rfl
    · exact ⟨.lines, true, rfl, by
        simp only [RelativeMove.from_prompt, splitSp_append "d" x (by decide) hx]; rfl⟩
    · exact ⟨.lines, true, rfl, by
        simp only [RelativeMove.from_prompt, splitSp_append "down" x (by decide) hx]; rfl⟩
    · exact ⟨.lines, false, rfl, by
        simp only [RelativeMove.from_prompt, splitSp_append "u" x (by decide) hx]; rfl⟩
    · exact ⟨.lines, false, rfl, by
        simp only [RelativeMove.from_prompt, splitSp_append "up" x (by decide) hx]; rfl⟩
    · exact ⟨.characters, true, rfl, by
        simp only [RelativeMove.from_prompt, splitSp_append "r" x (by decide) hx]; rfl⟩
    · exact ⟨.characters, true, rfl, by
        simp only [RelativeMove.from_prompt, splitSp_append "right" x (by decide) hx]; rfl⟩
    · exact ⟨.characters, false, rfl, by
        simp only [RelativeMove.from_prompt, splitSp_append "l" x (by decide) hx]; rfl⟩
    · exact ⟨.characters, false, rfl, by
        simp only [RelativeMove.from_prompt, splitSp_append "left" x (by decide) hx]; rfl⟩
    · exact ⟨.pages, true, rfl, by
        simp only [RelativeMove.from_prompt, splitSp_append "pd" x (by decide) hx]; rfl⟩
    · exact ⟨.pages, true, rfl, by
        simp only [RelativeMove.from_prompt, splitSp_append "page-down" x (by decide) hx]; rfl⟩
    · exact ⟨.pages, false, rfl, by
        simp only [RelativeMove.from_prompt, splitSp_append "pu" x (by decide) hx]; rfl⟩
    · exact ⟨.pages, false, rfl, by
        simp only [RelativeMove.from_prompt, splitSp_append "page-up" x (by decide) hx]; rfl⟩
  · intro tok x htok hne hx
    simp only [List.mem_cons, List.not_mem_nil, or_false] at htok
    rcases htok with rfl | rfl | rfl | rfl | rfl | rfl | rfl | rfl
    · exact ⟨.bof, rfl, by
        simp only [AbsoluteMove.from_prompt, splitSp_append "bof" x (by decide) hx]; rfl⟩
    · exact ⟨.bof, rfl, by
        simp only [AbsoluteMove.from_prompt,
          splitSp_append "beginning-of-file" x (by decide) hx]; rfl⟩
    · exact ⟨.eof, rfl, by
        simp only [AbsoluteMove.from_prompt, splitSp_append "eof" x (by decide) hx]; rfl⟩
    · exact ⟨.eof, rfl, by
        simp only [AbsoluteMove.from_prompt,
          splitSp_append "end-of-file" x (by decide) hx]; rfl⟩
    · exact ⟨.bol, rfl, by
        simp only [AbsoluteMove.from_prompt, splitSp_append "bol" x (by decide) hx]; rfl⟩
    · exact ⟨.bol, rfl, by
        simp only [AbsoluteMove.from_prompt,
          splitSp_append "beginning-of-line" x (by decide) hx]; rfl⟩
    · exact ⟨.eol, rfl, by
        simp only [AbsoluteMove.from_prompt, splitSp_append "eol" x (by decide) hx]; rfl⟩
    · exact ⟨.eol, rfl, by
        simp only [AbsoluteMove.from_prompt,
          splitSp_append "end-of-line" x (by decide) hx]; rfl⟩

/-- C3 witness: extension-flag content independence at concrete inputs. -/
theorem C3_extend_content_independence_witness :
    (∃ (b : RelativeMoveDistance) (f : Bool),
      RelativeMove.from_prompt "d" = .ok (.RelativeMove ⟨b, f, false⟩) ∧
      RelativeMove.from_prompt ("d" ++ " " ++ "q") =
        .ok (.RelativeMove ⟨b, f, true⟩)) ∧
    (∃ p : AbsoluteMovePoint,
      AbsoluteMove.from_prompt "bof" = .ok (.AbsoluteMove ⟨p, false⟩) ∧
      AbsoluteMove.from_prompt ("bof" ++ " " ++ "q") =
        .ok (.AbsoluteMove ⟨p, true⟩)) :=
  ⟨C3_extend_content_independence.1 "d" "q" (by decide) (by decide) (by decide),
   C3_extend_content_independence.2 "bof" "q" (by decide) (by decide) (by decide)⟩

/-- C9: for a space-free command word outside the specially parsed set and
any non-empty remainder, the prompt translator's result on "word r" equals
its result on "word" alone: the remainder is discarded and the word goes
to the keymap translator with no structured arguments. -/
theorem C9_fallback_discards_arguments :
    ∀ (se : String → Option String) (word r : String),
      word ∉ (["move", "move_to", "t", "theme", "o", "open", "f", "find"] : List String) →
      ' ' ∉ word.data → r ≠ "" →
      Command.from_prompt se (word ++ " " ++ r) = Command.from_prompt se word ∧
      Command.from_prompt se word = Command.from_keymap_entry ⟨[], word, none, none⟩ := by
  intro se word r hw hsp hr
  simp only [List.mem_cons, not_or] at hw
  obtain ⟨n1, n2, n3, n4, n5, n6, n7, n8, -⟩ := hw
  have h1 := splitFirstSpace_append word r hsp
  have h2 := splitFirstSpace_no_space word hsp
  have e1 : Command.from_prompt se (word ++ " " ++ r) =
      Command.from_keymap_entry ⟨[], word, none, none⟩ := by
    simp only [Command.from_prompt, h1]
    rw [if_neg n1, if_neg n2, if_neg (by tauto), if_neg (by tauto),
        if_neg (by tauto)]
  have e2 : Command.from_prompt se word =
      Command.from_keymap_entry ⟨[], word, none, none⟩ := by
    simp only [Command.from_prompt, h2]
    rw [if_neg n1, if_neg n2, if_neg (by tauto), if_neg (by tauto),
        if_neg (by tauto)]
  exact ⟨e1.trans e2.symm, e2⟩

/-- C9 witness: the remainder after an unhandled word is discarded. -/
theorem C9_fallback_discards_arguments_witness :
    Command.from_prompt (fun s => some s) ("quit" ++ " " ++ "junk") =
      Command.from_prompt (fun s => some s) "quit" ∧
    Command.from_prompt (fun s => some s) "quit" =
      Command.from_keymap_entry ⟨[], "quit", none, none⟩ :=
  C9_fallback_discards_arguments (fun s => some s) "quit" "junk"
    (by decide) (by decide) (by decide)

/-- C1: empty find input errors with expected-argument("find"); otherwise,
splitting once on the first space, when two parts exist, the first part is
at most 3 bytes long and all its characters lie in {c, r, w}, the result
is a Find whose term is the second part with the flags set exactly by the
occurring characters; in every other case the whole input is the term and
all flags are false.  `parse_find("cr needle text")` accordingly. -/
theorem C1_find_flag_grammar :
    (∀ args : String,
      (args = "" →
        FindConfig.from_prompt args = .error (.ExpectedArgument "find")) ∧
      (∀ p0 p1 : String, args ≠ "" → splitFirstSpace args = (p0, some p1) →
        ((strBytes p0 ≤ 3 ∧ ∀ c ∈ p0.data, c = 'c' ∨ c = 'r' ∨ c = 'w') →
          FindConfig.from_prompt args =
            .ok (.Find ⟨p1, p0.data.contains 'c', p0.data.contains 'r',
                        p0.data.contains 'w'⟩)) ∧
        (¬(strBytes p0 ≤ 3 ∧ ∀ c ∈ p0.data, c = 'c' ∨ c = 'r' ∨ c = 'w') →
          FindConfig.from_prompt args = .ok (.Find ⟨args, false, false, false⟩))) ∧
      (∀ p0 : String, args ≠ "" → splitFirstSpace args = (p0, none) →
        FindConfig.from_prompt args = .ok (.Find ⟨args, false, false, false⟩))) ∧
    FindConfig.from_prompt "cr needle text" =
      .ok (.Find ⟨"needle text", true, true, false⟩) := by
  constructor
  · intro args
    refine ⟨fun h => by simp [FindConfig.from_prompt, h], ?_, ?_⟩
    · intro p0 p1 hne hsp
      have hbool : (p0.data.all fun c => c == 'c' || c == 'r' || c == 'w') = true ↔
          (∀ c ∈ p0.data, c = 'c' ∨ c = 'r' ∨ c = 'w') := by
        simp only [List.all_eq_true, Bool.or_eq_true, beq_iff_eq]
        exact ⟨fun h c hc => (h c hc).elim (fun h2 => h2.elim Or.inl (Or.inr ∘ Or.inl))
            (Or.inr ∘ Or.inr),
          fun h c hc => (h c hc).elim (Or.inl ∘ Or.inl)
            (fun h2 => h2.elim (Or.inl ∘ Or.inr) Or.inr)⟩
      constructor
      · rintro ⟨hlen, hchars⟩
        simp only [FindConfig.from_prompt, if_neg hne, hsp]
        rw [if_pos hlen, scanFlags_eq, if_pos (hbool.mpr hchars)]
        simp
      · intro hnot
        simp only [FindConfig.from_prompt, if_neg hne, hsp]
        by_cases hlen : strBytes p0 ≤ 3
        · have hch : ¬(∀ c ∈ p0.data, c = 'c' ∨ c = 'r' ∨ c = 'w') :=
            fun hch => hnot ⟨hlen, hch⟩
          rw [if_pos hlen, scanFlags_eq, if_neg (fun hb => hch (hbool.mp hb))]
        · rw [if_neg hlen]
    · intro p0 hne hsp
      simp only [FindConfig.from_prompt, if_neg hne, hsp]
  · rfl

/-- C1 witness: the flag heuristic at concrete inputs — rejected cluster,
accepted cluster, and the empty-input error. -/
theorem C1_find_flag_grammar_witness :
    FindConfig.from_prompt "xy z" = .ok (.Find ⟨"xy z", false, false, false⟩) ∧
    FindConfig.from_prompt "w ord" = .ok (.Find ⟨"ord", false, false, true⟩) ∧
    FindConfig.from_prompt "" = .error (.ExpectedArgument "find") := by
  refine ⟨?_, ?_, ?_⟩
  · exact ((C1_find_flag_grammar.1 "xy z").2.1 "xy" "z"
      (by decide) (by decide)).2 (by decide)
  · exact ((C1_find_flag_grammar.1 "w ord").2.1 "w" "ord"
      (by decide) (by decide)).1 (by decide)
  · exact (C1_find_flag_grammar.1 "").1 rfl

theorem fkm_show_panel_some (ks : List String) (ctx : Option String) (j : Json) :
    Command.from_keymap_entry ⟨ks, "show_panel", some j, ctx⟩ =
      (match j.get "panel" with
       | none => .error .UnexpectedArgument
       | some value =>
         match value with
         | .str x =>
           if x = "find" then .ok (.OpenPrompt .Find) else .error .UnexpectedArgument
         | _ => .error .UnexpectedArgument) := rfl

theorem fkm_show_overlay_some (ks : List String) (ctx : Option String) (j : Json) :
    Command.from_keymap_entry ⟨ks, "show_overlay", some j, ctx⟩ =
      (match j.get "overlay" with
       | none => .error .UnexpectedArgument
       | some value =>
         match value with
         | .str x =>
           if x = "goto" then .ok (.OpenPrompt .Command) else .error .UnexpectedArgument
         | _ => .error .UnexpectedArgument) := rfl

theorem fkm_move_some (ks : List String) (ctx : Option String) (j : Json) :
    Command.from_keymap_entry ⟨ks, "move", some j, ctx⟩ =
      (match decodeRelativeMove j with
       | none => .error .UnexpectedArgument
       | some cmd => .ok (.RelativeMove cmd)) := rfl

theorem fkm_move_to_some (ks : List String) (ctx : Option String) (j : Json) :
    Command.from_keymap_entry ⟨ks, "move_to", some j, ctx⟩ =
      (match decodeAbsoluteMove j with
       | none => .error .UnexpectedArgument
       | some cmd => .ok (.AbsoluteMove cmd)) := rfl

theorem fkm_select_lines_some (ks : List String) (ctx : Option String) (j : Json) :
    Command.from_keymap_entry ⟨ks, "select_lines", some j, ctx⟩ =
      (match decodeExpandLines j with
       | none => .error .UnexpectedArgument
       | some cmd => .ok (.CursorExpandLines cmd)) := rfl

/-- C7: keymap bindings for "show_panel": absent args give
expected-argument("show_panel"); a "panel" field equal to "find" gives
OpenPrompt(Find); a missing "panel" field or any other value gives
unexpected-argument.  Analogously "show_overlay" with "overlay"/"goto".
For "move", "move_to" and "select_lines", absent args give
expected-argument with the command name and undecodable args give
unexpected-argument. -/
theorem C7_keymap_argument_policy :
    ∀ e : KeymapEntry,
      (e.command = "show_panel" →
        (e.args = none →
          Command.from_keymap_entry e = .error (.ExpectedArgument "show_panel")) ∧
        (∀ j : Json, e.args = some j →
          (j.get "panel" = some (.str "find") →
            Command.from_keymap_entry e = .ok (.OpenPrompt .Find)) ∧
          (j.get "panel" = none →
            Command.from_keymap_entry e = .error .UnexpectedArgument) ∧
          (∀ v : Json, j.get "panel" = some v → v ≠ .str "find" →
            Command.from_keymap_entry e = .error .UnexpectedArgument))) ∧
      (e.command = "show_overlay" →
        (e.args = none →
          Command.from_keymap_entry e = .error (.ExpectedArgument "show_overlay")) ∧
        (∀ j : Json, e.args = some j →
          (j.get "overlay" = some (.str "goto") →
            Command.from_keymap_entry e = .ok (.OpenPrompt .Command)) ∧
          (j.get "overlay" = none →
            Command.from_keymap_entry e = .error .UnexpectedArgument) ∧
          (∀ v : Json, j.get "overlay" = some v → v ≠ .str "goto" →
            Command.from_keymap_entry e = .error .UnexpectedArgument))) ∧
      (e.command = "move" →
        (e.args = none →
          Command.from_keymap_entry e = .error (.ExpectedArgument "move")) ∧
        (∀ j : Json, e.args = some j → decodeRelativeMove j = none →
          Command.from_keymap_entry e = .error .UnexpectedArgument)) ∧
      (e.command = "move_to" →
        (e.args = none →
          Command.from_keymap_entry e = .error (.ExpectedArgument "move_to")) ∧
        (∀ j : Json, e.args = some j → decodeAbsoluteMove j = none →
          Command.from_keymap_entry e = .error .UnexpectedArgument)) ∧
      (e.command = "select_lines" →
        (e.args = none →
          Command.from_keymap_entry e = .error (.ExpectedArgument "select_lines")) ∧
        (∀ j : Json, e.args = some j → decodeExpandLines j = none →
          Command.from_keymap_entry e = .error .UnexpectedArgument)) := by
  rintro ⟨ks, cmd, args, ctx⟩
  refine ⟨?_, ?_, ?_, ?_, ?_⟩
  · rintro rfl
    constructor
    · rintro rfl
      rfl
    · rintro j rfl
      refine ⟨?_, ?_, ?_⟩
      · intro hget
        rw [fkm_show_panel_some, hget]
        rfl
      · intro hget
        rw [fkm_show_panel_some, hget]
      · intro v hget hne
        rw [fkm_show_panel_some, hget]
        rcases v with _ | b | n | x | xs | kvs
        · rfl
        · rfl
        · rfl
        · have hx : x ≠ "find" := fun hx => hne (by rw [hx])
          simp only [if_neg hx]
        · rfl
        · rfl
  · rintro rfl
    constructor
    · rintro rfl
      rfl
    · rintro j rfl
      refine ⟨?_, ?_, ?_⟩
      · intro hget
        rw [fkm_show_overlay_some, hget]
        rfl
      · intro hget
        rw [fkm_show_overlay_some, hget]
      · intro v hget hne
        rw [fkm_show_overlay_some, hget]
        rcases v with _ | b | n | x | xs | kvs
        · rfl
        · rfl
        · rfl
        · have hx : x ≠ "goto" := fun hx => hne (by rw [hx])
          simp only [if_neg hx]
        · rfl
        · rfl
  · rintro rfl
    constructor
    · rintro rfl
      rfl
    · rintro j rfl hdec
      rw [fkm_move_some, hdec]
  · rintro rfl
    constructor
    · rintro rfl
      rfl
    · rintro j rfl hdec
      rw [fkm_move_to_some, hdec]
  · rintro rfl
    constructor
    · rintro rfl
      rfl
    · rintro j rfl hdec
      rw [fkm_select_lines_some, hdec]

/-- C7 witness: the panel binding at concrete records. -/
theorem C7_keymap_argument_policy_witness :
    Command.from_keymap_entry
      ⟨[], "show_panel", some (.obj [("panel", .str "find")]), none⟩ =
      .ok (.OpenPrompt .Find) ∧
    Command.from_keymap_entry
      ⟨[], "show_panel", some (.obj [("panel", .str "other")]), none⟩ =
      .error .UnexpectedArgument ∧
    Command.from_keymap_entry ⟨[], "move", none, none⟩ =
      .error (.ExpectedArgument "move") := by
  refine ⟨?_, ?_, ?_⟩
  · exact (((C7_keymap_argument_policy
      ⟨[], "show_panel", some (.obj [("panel", .str "find")]), none⟩).1 rfl).2
      _ rfl).1 rfl
  · exact (((C7_keymap_argument_policy
      ⟨[], "show_panel", some (.obj [("panel", .str "other")]), none⟩).1 rfl).2
      _ rfl).2.2 (.str "other") rfl
      (fun h => by injection h with h2; exact absurd h2 (by decide))
  · exact ((C7_keymap_argument_policy ⟨[], "move", none, none⟩).2.2.1 rfl).1 rfl

/-- C8: rendering is total and deterministic — every `Command` renders
(the function is total) to a non-empty label, equal commands render to
equal labels, and the payload-bearing variants Open, SetTheme, Find,
Insert and Save render a label independent of their payload. -/
theorem C8_render_total_deterministic :
    (∀ c : Command, Command.to_prompt c ≠ "") ∧
    (∀ c1 c2 : Command, c1 = c2 → Command.to_prompt c1 = Command.to_prompt c2) ∧
    (∀ p q : Option String,
      Command.to_prompt (.Open p) = Command.to_prompt (.Open q)) ∧
    (∀ p q : String,
      Command.to_prompt (.SetTheme p) = Command.to_prompt (.SetTheme q)) ∧
    (∀ p q : FindConfig,
      Command.to_prompt (.Find p) = Command.to_prompt (.Find q)) ∧
    (∀ p q : Char,
      Command.to_prompt (.Insert p) = Command.to_prompt (.Insert q)) ∧
    (∀ p q : Option ViewId,
      Command.to_prompt (.Save p) = Command.to_prompt (.Save q)) := by
  refine ⟨?_, fun c1 c2 h => by rw [h], fun p q => rfl, fun p q => rfl,
    fun p q => rfl, fun p q => rfl, fun p q => rfl⟩
  intro c
  cases c with
  | Save v => exact (by decide : ("save" : String) ≠ "")
  | Open f => exact (by decide : ("open" : String) ≠ "")
  | SetTheme t => exact (by decide : ("settheme" : String) ≠ "")
  | OpenPrompt m => cases m <;> decide
  | Insert ch => exact (by decide : ("insert" : String) ≠ "")
  | Find cfg => exact (by decide : ("find" : String) ≠ "")
  | CursorExpandLines d =>
    exact (by decide : ("cursor_expand_lines" : String) ≠ "")
  | RelativeMove m =>
    rcases m with ⟨b, f, e⟩
    cases b <;> cases f <;> cases e <;> decide
  | AbsoluteMove m =>
    rcases m with ⟨t, e⟩
    cases t with
    | line n =>
      cases e
      · exact (by decide : ("move " ++ "<line>" : String) ≠ "")
      · exact (by decide : ("move " ++ "<line>" ++ " (e)xtend" : String) ≠ "")
    | bof => cases e <;> decide
    | eof => cases e <;> decide
    | bol => cases e <;> decide
    | eol => cases e <;> decide
    | brackets => cases e <;> decide
  | _ => decide

/-- C8 witness: rendering evaluated at concrete commands. -/
theorem C8_render_total_deterministic_witness :
    Command.to_prompt .Quit = Command.to_prompt .Quit ∧
    Command.to_prompt (.Open (some "/tmp/a")) ≠ "" :=
  ⟨C8_render_total_deterministic.2.1 .Quit .Quit rfl,
   C8_render_total_deterministic.1 (.Open (some "/tmp/a"))⟩

/-- C10: the renderer labels character moves "left" when forward and
"right" when backward, the opposite of the parse table; hence parsing the
rendered label of a lines- or pages-move returns exactly the original
value, while for a characters-move it returns the value with forward
negated. -/
theorem C10_roundtrip_asymmetry :
    (∀ (se : String → Option String) (m : RelativeMove),
      ((m.by_ = .lines ∨ m.by_ = .pages) →
        Command.from_prompt se m.to_prompt = .ok (.RelativeMove m)) ∧
      (m.by_ = .characters →
        Command.from_prompt se m.to_prompt =
          .ok (.RelativeMove ⟨.characters, !m.forward, m.extend⟩))) ∧
    (RelativeMove.to_prompt ⟨.characters, true, false⟩ = "move left" ∧
     RelativeMove.to_prompt ⟨.characters, false, false⟩ = "move right" ∧
     RelativeMove.from_prompt "right" =
       .ok (.RelativeMove ⟨.characters, true, false⟩) ∧
     RelativeMove.from_prompt "left" =
       .ok (.RelativeMove ⟨.characters, false, false⟩)) := by
  constructor
  · intro se m
    rcases m with ⟨b, f, e⟩
    constructor
    · rintro (rfl | rfl) <;> cases f <;> cases e <;> rfl
    · rintro rfl
      cases f <;> cases e <;> rfl
  · exact ⟨rfl, rfl, rfl, rfl⟩

/-- C10 witness: the round trip at concrete moves — identity for a lines
move, forward negated for a characters move. -/
theorem C10_roundtrip_asymmetry_witness :
    Command.from_prompt (fun s => some s)
      (RelativeMove.to_prompt ⟨.lines, true, false⟩) =
      .ok (.RelativeMove ⟨.lines, true, false⟩) ∧
    Command.from_prompt (fun s => some s)
      (RelativeMove.to_prompt ⟨.characters, true, false⟩) =
      .ok (.RelativeMove ⟨.characters, false, false⟩) :=
  ⟨(C10_roundtrip_asymmetry.1 (fun s => some s) ⟨.lines, true, false⟩).1
      (Or.inl rfl),
   (C10_roundtrip_asymmetry.1 (fun s => some s) ⟨.characters, true, false⟩).2
      rfl⟩
